import Mathlib

/-!
Shallow embedding of the TimeTracker browser extension's core logic:
the document-key resolver (`generateDocKey` in the background script and
its copy in the popup script), the IndexedDB session store
(`IndexedDBManager`: `recordSession`, `getSessionsByDocKey`,
`getDocumentStats`, `deleteOldSessions`, `getWeekKey`), the dashboard's
`deleteDocument`, and the activity poller (`trackActiveTab`,
`tabs.onActivated` / `tabs.onRemoved` listeners).

JavaScript strings are modelled as Lean `String`; IndexedDB string-key
comparison (UTF-16 code-unit order) agrees with Lean's `String` order on
the ASCII date strings the store uses.  The `documents` object store
(primary key `docKey`) is modelled as a partial map `String → Option
DocumentRecord`; the `sessions` store (auto-increment primary key) as a
list plus a next-id counter.  Wall-clock reads (`new Date()`) are passed
in as explicit arguments.
-/

/-- `pat` occurs as a contiguous run somewhere in the list. -/
def listHasRun (pat : List Char) : List Char → Bool
  | [] => pat.isEmpty
  | c :: rest => pat.isPrefixOf (c :: rest) || listHasRun pat rest

/-- JavaScript `String.prototype.includes`: `pat` occurs as a substring of `s`. -/
def strIncludes (s pat : String) : Bool :=
  listHasRun pat.data s.data

/-! ## The URL model

`generateDocKey` starts with `new URL(tab.url)` and then looks only at
`url.hostname` and `url.pathname`.  `URLParts` models a successfully
constructed URL object; `parseURL` models the WHATWG constructor on
hierarchical `scheme://host/path` input, and fails (the constructor
throws a `TypeError`) on anything else, such as a string with no scheme. -/

structure URLParts where
  hostname : String
  pathname : String
deriving DecidableEq

inductive UrlError where
  | malformed
deriving DecidableEq

def isSchemeChar (c : Char) : Bool :=
  c.isAlphanum || c = '+' || c = '-' || c = '.'

/-- Model of `new URL(s)` for absolute hierarchical URLs: a nonempty scheme,
then `://`, then a nonempty host (a port after `:` is dropped from
`hostname`), then an optional path terminated by `?` or `#`; an absent path
reads back as `/`.  Any other shape throws, i.e. returns `.error`. -/
def parseURL (s : String) : Except UrlError URLParts :=
  let cs := s.data
  let scheme := cs.takeWhile (fun c => c ≠ ':')
  if scheme.isEmpty || !scheme.all isSchemeChar then .error .malformed
  else
    match cs.drop scheme.length with
    | ':' :: '/' :: '/' :: tail =>
      let hostport := tail.takeWhile (fun c => c ≠ '/' && c ≠ '?' && c ≠ '#')
      let host := hostport.takeWhile (fun c => c ≠ ':')
      if host.isEmpty then .error .malformed
      else
        let pathChars := (tail.drop hostport.length).takeWhile (fun c => c ≠ '?' && c ≠ '#')
        .ok { hostname := String.mk host
              pathname := if pathChars.isEmpty then "/" else String.mk pathChars }
    | _ => .error .malformed

/-- The character class `[a-zA-Z0-9-_]` used by the document-id regexes. -/
def isDocIdChar (c : Char) : Bool :=
  c.isAlphanum || c = '-' || c = '_'

/-- Leftmost unanchored match of a regex of the shape
`<literal pat>(<cls>+)`: scan start positions left to right; at the first
position where the literal matches and is followed by at least one `cls`
character, capture the maximal `cls` run.  This is exactly how the
JavaScript engine matches `/\/document\/d\/([a-zA-Z0-9-_]+)/` and the
other single-capture patterns in `generateDocKey`. -/
def scanCapture (pat : List Char) (cls : Char → Bool) : List Char → Option (List Char)
  | [] => none
  | c :: rest =>
    if pat.isPrefixOf (c :: rest) then
      let run := ((c :: rest).drop pat.length).takeWhile cls
      if run.isEmpty then scanCapture pat cls rest else some run
    else scanCapture pat cls rest

def findCapture (pat : String) (cls : Char → Bool) (s : String) : Option String :=
  (scanCapture pat.data cls s.data).map String.mk

def isLowerAl (c : Char) : Bool := c.isLower
def isLowerDigit (c : Char) : Bool := c.isLower || c.isDigit

/-- Leftmost match of `/\/([a-z]+)\/([a-z0-9]+)/` (the Office branch).
Because `/` is not in `[a-z]`, the greedy `[a-z]+` can never backtrack to
a shorter run and still be followed by `/`, so the leftmost match takes
the maximal lowercase run, requires a `/`, then a nonempty maximal
`[a-z0-9]` run. -/
def scanOffice : List Char → Option (List Char × List Char)
  | [] => none
  | c :: rest =>
    if c = '/' then
      let a := rest.takeWhile isLowerAl
      if a.isEmpty then scanOffice rest
      else
        match rest.drop a.length with
        | '/' :: rest3 =>
          let b := rest3.takeWhile isLowerDigit
          if b.isEmpty then scanOffice rest else some (a, b)
        | _ => scanOffice rest
    else scanOffice rest

/-- `generateDocKey` from the background script (src/unnamed/part_000),
after `new URL` has succeeded: the chain of hostname tests and path
regexes, first match wins, ending in the `domain_` fallback. -/
def generateDocKeyBg (u : URLParts) : String :=
  match (if strIncludes u.hostname "docs.google.com" then
           findCapture "/document/d/" isDocIdChar u.pathname else none) with
  | some id => "gdoc_" ++ id
  | none =>
  match (if strIncludes u.hostname "docs.google.com" && strIncludes u.pathname "/spreadsheets" then
           findCapture "/spreadsheets/d/" isDocIdChar u.pathname else none) with
  | some id => "gsheet_" ++ id
  | none =>
  match (if strIncludes u.hostname "office.com" || strIncludes u.hostname "office365.com" then
           (scanOffice u.pathname.data).map (fun p => (String.mk p.1, String.mk p.2)) else none) with
  | some p => "office_" ++ p.1 ++ "_" ++ p.2
  | none =>
  match (if strIncludes u.hostname "claude.ai" then
           findCapture "/chat/" isDocIdChar u.pathname else none) with
  | some id => "claude_" ++ id
  | none =>
  match (if strIncludes u.hostname "chat.openai.com" || strIncludes u.hostname "chatgpt.com" then
           findCapture "/c/" isDocIdChar u.pathname else none) with
  | some id => "chatgpt_" ++ id
  | none => "domain_" ++ u.hostname

/-- `generateDocKey` from the popup script (second document in
src/unnamed/part_000): same branches as the background copy except that
the claude.ai and chatgpt branches are absent. -/
def generateDocKeyPopup (u : URLParts) : String :=
  match (if strIncludes u.hostname "docs.google.com" then
           findCapture "/document/d/" isDocIdChar u.pathname else none) with
  | some id => "gdoc_" ++ id
  | none =>
  match (if strIncludes u.hostname "docs.google.com" && strIncludes u.pathname "/spreadsheets" then
           findCapture "/spreadsheets/d/" isDocIdChar u.pathname else none) with
  | some id => "gsheet_" ++ id
  | none =>
  match (if strIncludes u.hostname "office.com" || strIncludes u.hostname "office365.com" then
           (scanOffice u.pathname.data).map (fun p => (String.mk p.1, String.mk p.2)) else none) with
  | some p => "office_" ++ p.1 ++ "_" ++ p.2
  | none => "domain_" ++ u.hostname

/-- The background resolver on a raw URL string: `new URL` then the branch
chain.  A parse failure is the thrown `TypeError`, which `generateDocKey`
does not catch. -/
def generateDocKeyStr (urlStr : String) : Except UrlError String :=
  match parseURL urlStr with
  | .error e => .error e
  | .ok u => .ok (generateDocKeyBg u)

/-! ## The session store

`IndexedDBManager` over two object stores: `documents` keyed by `docKey`
(`docStore.get` / `docStore.put` / `docStore.delete` are lookup, upsert
and removal in a partial map) and `sessions` with an auto-increment
primary key (`sessionStore.add` appends with the next id).  Index
`getAll(docKey)` returns the records whose `docKey` field matches; the
`date`-index cursor over `IDBKeyRange.upperBound(cutoff)` visits exactly
the records with `date ≤ cutoff`. -/

structure DocumentRecord where
  docKey : String
  title : String
  url : String
  firstSeen : String
  lastSeen : String
  totalTimeMs : Nat
deriving DecidableEq

structure SessionRecord where
  id : Nat
  docKey : String
  date : String
  durationMs : Nat
  timestamp : String
deriving DecidableEq

structure DB where
  documents : String → Option DocumentRecord
  sessions : List SessionRecord
  nextId : Nat

/-- The argument object of `recordSession`, together with the wall-clock
reading `now` that the method takes via `new Date().toISOString()`. -/
structure SessionInput where
  docKey : String
  title : String
  date : String
  durationMs : Nat
  url : String
  now : String
deriving DecidableEq

/-- `IndexedDBManager.recordSession` (src/unnamed/part_002, lines 39-83):
get the document record or build a fresh one with `totalTimeMs = 0`,
overwrite `title` and `lastSeen`, add `durationMs` to `totalTimeMs`,
`put` it back, and `add` one session record, in one transaction. -/
def DB.recordSession (db : DB) (inp : SessionInput) : DB :=
  let docRecord0 := (db.documents inp.docKey).getD
    { docKey := inp.docKey, title := inp.title, url := inp.url
      firstSeen := inp.now, lastSeen := inp.now, totalTimeMs := 0 }
  let docRecord := { docRecord0 with
    title := inp.title, lastSeen := inp.now
    totalTimeMs := docRecord0.totalTimeMs + inp.durationMs }
  { documents := fun k => if k = inp.docKey then some docRecord else db.documents k
    sessions := db.sessions ++
      [{ id := db.nextId, docKey := inp.docKey, date := inp.date
         durationMs := inp.durationMs, timestamp := inp.now }]
    nextId := db.nextId + 1 }

/-- `IndexedDBManager.getSessionsByDocKey`: `sessions.index("docKey").getAll(docKey)`. -/
def DB.getSessionsByDocKey (db : DB) (docKey : String) : List SessionRecord :=
  db.sessions.filter (fun s => s.docKey == docKey)

/-- `IndexedDBManager.getDocumentStats`: `documents.get(docKey)`. -/
def DB.getDocumentStats (db : DB) (docKey : String) : Option DocumentRecord :=
  db.documents docKey

/-- Strict lexicographic order on character lists: IndexedDB's key
comparison for strings (code-unit by code-unit, a proper prefix sorts
first), which coincides with codepoint order on the ASCII `YYYY-MM-DD`
date keys the store uses. -/
def charListLt : List Char → List Char → Bool
  | [], [] => false
  | [], _ :: _ => true
  | _ :: _, [] => false
  | a :: as, b :: bs => if a < b then true else if b < a then false else charListLt as bs

/-- `a ≤ b` in IndexedDB string-key order. -/
def dateLe (a b : String) : Bool := !(charListLt b.data a.data)

/-- `IndexedDBManager.deleteOldSessions`: a `date`-index cursor over
`IDBKeyRange.upperBound(cutoffDate)` deleting every visited record, so
exactly the sessions with `date ≤ cutoffDate` are removed. -/
def DB.deleteOldSessions (db : DB) (cutoffDate : String) : DB :=
  { db with sessions := db.sessions.filter (fun s => !(dateLe s.date cutoffDate)) }

/-- `deleteDocument` from the dashboard (src/dashboard/app.js, lines
322-359): in one transaction, `docStore.delete(docKey)` plus a
`docKey`-index cursor over `IDBKeyRange.only(docKey)` deleting every
visited session record. -/
def DB.deleteDocument (db : DB) (docKey : String) : DB :=
  { db with
    documents := fun k => if k = docKey then none else db.documents k
    sessions := db.sessions.filter (fun s => !(s.docKey == docKey)) }

def DB.recordMany (db : DB) (l : List SessionInput) : DB :=
  l.foldl DB.recordSession db

/-! ## The calendar model for `getWeekKey`

`getWeekKey(dateString)` runs
`new Date(dateString)` (an ISO `YYYY-MM-DD` string parses as UTC
midnight), then `date.setDate(date.getDate() - date.getDay())` (both
accessors read the platform's LOCAL calendar), then
`toISOString().split("T")[0]` (back to UTC).  The platform timezone is
modelled as a fixed offset `tz` in minutes east of UTC
(`localMillis = utcMillis + tz * 60000`).  `setDate(x)` keeps the local
time of day and moves the local day of month to `x`, i.e. shifts the
timestamp by `(x - getDate()) * 86400000` ms; with
`x = getDate() - getDay()` the shift is `-getDay()` days.  Calendar
conversions use the standard civil-from-days / days-from-civil
algorithms on the proleptic Gregorian calendar. -/

/-- Days from 1970-01-01 (UTC) for a civil date. -/
def daysFromCivil (y m d : Int) : Int :=
  let y1 := if m ≤ 2 then y - 1 else y
  let era := Int.fdiv y1 400
  let yoe := y1 - era * 400
  let mp := if 2 < m then m - 3 else m + 9
  let doy := Int.fdiv (153 * mp + 2) 5 + d - 1
  let doe := yoe * 365 + Int.fdiv yoe 4 - Int.fdiv yoe 100 + doy
  era * 146097 + doe - 719468

/-- Civil date for a count of days from 1970-01-01 (UTC). -/
def civilFromDays (z0 : Int) : Int × Int × Int :=
  let z := z0 + 719468
  let era := Int.fdiv z 146097
  let doe := z - era * 146097
  let yoe := Int.fdiv (doe - Int.fdiv doe 1460 + Int.fdiv doe 36524 - Int.fdiv doe 146096) 365
  let y := yoe + era * 400
  let doy := doe - (365 * yoe + Int.fdiv yoe 4 - Int.fdiv yoe 100)
  let mp := Int.fdiv (5 * doy + 2) 153
  let d := doy - Int.fdiv (153 * mp + 2) 5 + 1
  let m := if mp < 10 then mp + 3 else mp - 9
  (if m ≤ 2 then y + 1 else y, m, d)

def digitChar : Nat → Char
  | 0 => '0' | 1 => '1' | 2 => '2' | 3 => '3' | 4 => '4'
  | 5 => '5' | 6 => '6' | 7 => '7' | 8 => '8' | _ => '9'

def twoDigits (n : Nat) : List Char :=
  [digitChar (n / 10 % 10), digitChar (n % 10)]

def fourDigits (n : Nat) : List Char :=
  [digitChar (n / 1000 % 10), digitChar (n / 100 % 10), digitChar (n / 10 % 10),
   digitChar (n % 10)]

/-- `toISOString().split("T")[0]` for a whole number of days from the
epoch, rendered `YYYY-MM-DD` (every date the tracker writes has a
four-digit year). -/
def formatEpochDay (n : Int) : String :=
  match civilFromDays n with
  | (y, m, d) =>
    String.mk (fourDigits y.toNat ++ '-' :: (twoDigits m.toNat ++ '-' :: twoDigits d.toNat))

def isLeapYear (y : Int) : Bool :=
  (y % 4 == 0 && y % 100 != 0) || y % 400 == 0

def daysInMonth (y m : Int) : Int :=
  if m == 2 then (if isLeapYear y then 29 else 28)
  else if m == 4 || m == 6 || m == 9 || m == 11 then 30
  else 31

/-- `new Date("YYYY-MM-DD")` accepts exactly the ISO date form with an
in-range month and day (otherwise it yields an Invalid Date); the result
is UTC midnight of that civil date. -/
def splitDash : List Char → List (List Char)
  | [] => [[]]
  | '-' :: rest => [] :: splitDash rest
  | c :: rest =>
    match splitDash rest with
    | [] => [[c]]
    | g :: gs => (c :: g) :: gs

/-- The numeric value of a decimal digit character, via its code point. -/
def digitVal (c : Char) : Option Nat :=
  let n := c.toNat
  if 48 ≤ n && n ≤ 57 then some (n - 48) else none

def digitsToNatAux (acc : Nat) : List Char → Option Nat
  | [] => some acc
  | c :: rest =>
    match digitVal c with
    | some d => digitsToNatAux (acc * 10 + d) rest
    | none => none

/-- A nonempty all-digit run as a number. -/
def digitsToNat (cs : List Char) : Option Nat :=
  if cs.isEmpty then none else digitsToNatAux 0 cs

def parseDateString (ds : String) : Option (Int × Int × Int) :=
  match splitDash ds.data with
  | [ys, ms, dss] =>
    if ys.length == 4 && ms.length == 2 && dss.length == 2 then
      match digitsToNat ys, digitsToNat ms, digitsToNat dss with
      | some y, some m, some d =>
        let yi : Int := y
        let mi : Int := m
        let di : Int := d
        if 1 ≤ mi && mi ≤ 12 && 1 ≤ di && di ≤ daysInMonth yi mi then some (yi, mi, di)
        else none
      | _, _, _ => none
    else none
  | _ => none

def epochDayOfDateString (ds : String) : Option Int :=
  (parseDateString ds).map (fun t => daysFromCivil t.1 t.2.1 t.2.2)

/-- `IndexedDBManager.getWeekKey` (src/unnamed/part_002, lines 143-147)
in a timezone `tz` minutes east of UTC.  With `n` the parsed epoch day,
`getDay()` reads the weekday of the LOCAL day containing UTC midnight of
`n`, and `setDate(getDate() - getDay())` shifts the timestamp back by
exactly that many days, so `toISOString` renders epoch day `n - getDay()`. -/
def getWeekKey (tz : Int) (dateString : String) : Option String :=
  match epochDayOfDateString dateString with
  | none => none
  | some n =>
    let localMillis := n * 86400000 + tz * 60000
    let localDay := Int.fdiv localMillis 86400000
    let day := (localDay + 4) % 7
    some (formatEpochDay (n - day))

/-- Bucket key used by `getTimeBreakdown` for a period: the raw date for
"day", `getWeekKey` for "week", `substring(0, 7)` for "month". -/
def breakdownKey (tz : Int) (period date : String) : Option String :=
  if period == "week" then getWeekKey tz date
  else if period == "month" then some (date.take 7)
  else some date

def bumpAssoc (l : List (String × Nat)) (k : String) (v : Nat) : List (String × Nat) :=
  if l.any (fun p => p.1 == k) then
    l.map (fun p => if p.1 == k then (p.1, p.2 + v) else p)
  else l ++ [(k, v)]

/-- `IndexedDBManager.getTimeBreakdown`: fold the document's sessions
into per-bucket sums; `none` models the exception thrown when a session
date fails to parse inside `getWeekKey`. -/
def DB.getTimeBreakdown (db : DB) (tz : Int) (docKey period : String) :
    Option (List (String × Nat)) :=
  (db.getSessionsByDocKey docKey).foldlM
    (fun acc s => (breakdownKey tz period s.date).map (fun k => bumpAssoc acc k s.durationMs)) []

/-! ## The activity poller

Background script state `tabAccumulatedTime`: a mutable object mapping a
tab id to `{ seconds, tab }`, modelled as an association list with
JavaScript object-key semantics (assignment replaces the entry in place,
`delete` removes one key, `= {}` clears everything). -/

structure Tab where
  id : Nat
  title : String
  url : String
deriving DecidableEq

structure TabAcc where
  seconds : Nat
  tab : Tab
deriving DecidableEq

abbrev PollerState := List (Nat × TabAcc)

def lookupTab (s : PollerState) (tid : Nat) : Option TabAcc :=
  (s.find? (fun p => p.1 == tid)).map Prod.snd

/-- `tabAccumulatedTime[tid] = v`. -/
def setTab : PollerState → Nat → TabAcc → PollerState
  | [], tid, v => [(tid, v)]
  | p :: rest, tid, v =>
    if p.1 == tid then (tid, v) :: rest else p :: setTab rest tid v

/-- The `tabs.onActivated` listener: `tabAccumulatedTime = {}`. -/
def onActivated (_s : PollerState) : PollerState := []

/-- The `tabs.onRemoved` listener: `delete tabAccumulatedTime[tabId]`. -/
def onRemoved (s : PollerState) (tabId : Nat) : PollerState :=
  s.filter (fun p => !(p.1 == tabId))

/-- JavaScript `String.prototype.startsWith`. -/
def strStartsWith (s pat : String) : Bool := pat.data.isPrefixOf s.data

/-- The browser-internal URL schemes `trackActiveTab` skips. -/
def isTrackableUrl (u : String) : Bool :=
  !(strStartsWith u "chrome://" || strStartsWith u "about:" || strStartsWith u "edge://" ||
    strStartsWith u "chrome-extension://" || strStartsWith u "moz-extension://")

/-- The argument object of the `db.recordSession` call that the
background script's `recordSession(tab)` issues. -/
structure RecordCall where
  docKey : String
  title : String
  date : String
  durationMs : Nat
  url : String
deriving DecidableEq

/-- `trackActiveTab` (src/unnamed/part_000, lines 44-86) on one tick:
skip when there is no active tab, a falsy id or title, or an untrackable
URL; otherwise create the accumulator entry at 0 if absent, add 1 second,
refresh the stored tab, and once `seconds >= MIN_RECORD_SECONDS` (10)
call `recordSession(tab)`, which records `durationMs: 1000` under
`generateDocKey(tab)`.  A `new URL` throw inside that call is caught by
the tick's try/catch after the accumulator was already bumped. -/
def trackActiveTab (s : PollerState) (activeTab : Option Tab) (today : String) :
    PollerState × Option RecordCall :=
  match activeTab with
  | none => (s, none)
  | some tab =>
    if tab.id == 0 || tab.title == "" then (s, none)
    else if !(isTrackableUrl tab.url) then (s, none)
    else
      let prev := ((lookupTab s tab.id).map TabAcc.seconds).getD 0
      let secs := prev + 1
      let s1 := setTab s tab.id { seconds := secs, tab := tab }
      if 10 ≤ secs then
        match generateDocKeyStr tab.url with
        | .ok dk =>
          (s1, some { docKey := dk, title := tab.title, date := today
                      durationMs := 1000, url := tab.url })
        | .error _ => (s1, none)
      else (s1, none)

/-! ## Helper lemmas -/

lemma isPrefixOf_append_self (l r : List Char) : l.isPrefixOf (l ++ r) = true := by
  induction l with
  | nil => simp [List.isPrefixOf]
  | cons a t ih => simp [List.isPrefixOf, ih]

lemma takeWhile_append_of_all (cls : Char → Bool) (id tail : List Char)
    (hall : ∀ c ∈ id, cls c = true) (ht : tail.takeWhile cls = []) :
    (id ++ tail).takeWhile cls = id := by
  induction id with
  | nil => simpa using ht
  | cons a t ih =>
    have ha : cls a = true := hall a (by simp)
    simp only [List.cons_append, List.takeWhile_cons, ha, if_true]
    rw [ih (fun c hc => hall c (by simp [hc]))]

lemma scanCapture_at_start (pat id tail : List Char) (cls : Char → Bool)
    (hpat : pat ≠ []) (hid : id ≠ []) (hall : ∀ c ∈ id, cls c = true)
    (ht : tail.takeWhile cls = []) :
    scanCapture pat cls (pat ++ (id ++ tail)) = some id := by
  obtain ⟨p, ps, rfl⟩ : ∃ p ps, pat = p :: ps := by
    cases pat with
    | nil => exact absurd rfl hpat
    | cons p ps => exact ⟨p, ps, rfl⟩
  have hpre : (p :: ps).isPrefixOf (p :: (ps ++ (id ++ tail))) = true := by
    simp [isPrefixOf_append_self]
  have hdrop : (p :: (ps ++ (id ++ tail))).drop (p :: ps).length = id ++ tail := by
    simp [List.drop_left]
  have hrun : (id ++ tail).takeWhile cls = id := takeWhile_append_of_all cls id tail hall ht
  show scanCapture (p :: ps) cls (p :: (ps ++ (id ++ tail))) = some id
  rw [scanCapture, if_pos hpre, hdrop, hrun]
  simp [hid]

/-! ## Claim C1 -/

/-- Claim C1 (code_bug evidence): the resolver is NOT total.  On an input
string that is not a parseable URL, `new URL(tab.url)` throws and
`generateDocKey` propagates the error (modelled as `Except.error`); it
does not degrade to the `domain_` fallback key the spec requires. -/
theorem c1_generateDocKey_throws_on_malformed :
    generateDocKeyStr "notaurl" = Except.error UrlError.malformed ∧
    parseURL "notaurl" = Except.error UrlError.malformed ∧
    parseURL "http://" = Except.error UrlError.malformed := by
  exact ⟨rfl, rfl, rfl⟩

/-! ## Claim C5 -/

/-- Claim C5 (code_bug evidence): the background tracker's resolver and
the popup's resolver disagree.  For a claude.ai conversation URL the
background records time under `claude_abc123` while the popup looks the
same tab up under `domain_claude.ai`. -/
theorem c5_popup_background_resolvers_disagree :
    generateDocKeyStr "https://claude.ai/chat/abc123" = Except.ok "claude_abc123" ∧
    generateDocKeyBg { hostname := "claude.ai", pathname := "/chat/abc123" } = "claude_abc123" ∧
    generateDocKeyPopup { hostname := "claude.ai", pathname := "/chat/abc123" } = "domain_claude.ai" := by
  exact ⟨rfl, rfl, rfl⟩

/-! ## Claim C10 -/

/-- On a path that starts with `/` then a nonempty lowercase run, a `/`,
and a nonempty `[a-z0-9]` run, the Office regex matches at the start and
captures the two runs. -/
lemma scanOffice_at_start (a b tail : List Char)
    (ha : a ≠ []) (halla : ∀ c ∈ a, isLowerAl c = true)
    (hb : b ≠ []) (hallb : ∀ c ∈ b, isLowerDigit c = true)
    (ht : tail.takeWhile isLowerDigit = []) :
    scanOffice ('/' :: (a ++ '/' :: (b ++ tail))) = some (a, b) := by
  have hslash : isLowerAl '/' = false := by decide
  have harun : (a ++ '/' :: (b ++ tail)).takeWhile isLowerAl = a := by
    apply takeWhile_append_of_all isLowerAl a _ halla
    simp [List.takeWhile_cons, hslash]
  have hdrop : (a ++ '/' :: (b ++ tail)).drop a.length = '/' :: (b ++ tail) := by
    simp [List.drop_left]
  have hbrun : (b ++ tail).takeWhile isLowerDigit = b :=
    takeWhile_append_of_all isLowerDigit b tail hallb ht
  rw [scanOffice, if_pos rfl, harun]
  simp [ha, hb, hdrop, hbrun]

/-- Claim C10: the two scenario URLs resolve as the spec states; for
every supported editor or chat provider, a URL whose hostname matches
that provider and whose path contains a valid id segment (the provider's
id regex matches, while no earlier branch of the chain does) resolves to
`<providerTag>_<id>` — stated for all five branches: gdoc, gsheet,
office, claude, chatgpt; any path bearing `<pattern><id>` at its head
does produce such a match, for each single-capture pattern and for the
Office two-capture pattern; and every other well-formed URL — one on
which no branch matches, including provider hostnames whose path has no
valid id segment — falls back to `domain_<hostname>`. -/
theorem c10_docKey_resolution :
    generateDocKeyStr "https://docs.google.com/document/d/XYZ123/edit" = Except.ok "gdoc_XYZ123" ∧
    generateDocKeyStr "https://example.com/page" = Except.ok "domain_example.com" ∧
    (∀ pat id tail : List Char, pat ≠ [] → id ≠ [] → (∀ c ∈ id, isDocIdChar c = true) →
      tail.takeWhile isDocIdChar = [] →
      findCapture (String.mk pat) isDocIdChar (String.mk (pat ++ (id ++ tail)))
        = some (String.mk id)) ∧
    (∀ a b tail : List Char, a ≠ [] → (∀ c ∈ a, isLowerAl c = true) →
      b ≠ [] → (∀ c ∈ b, isLowerDigit c = true) → tail.takeWhile isLowerDigit = [] →
      scanOffice ('/' :: (a ++ '/' :: (b ++ tail))) = some (a, b)) ∧
    (∀ (u : URLParts) (id : String),
      strIncludes u.hostname "docs.google.com" = true →
      findCapture "/document/d/" isDocIdChar u.pathname = some id →
      generateDocKeyBg u = "gdoc_" ++ id) ∧
    (∀ (u : URLParts) (id : String),
      strIncludes u.hostname "docs.google.com" = true →
      findCapture "/document/d/" isDocIdChar u.pathname = none →
      strIncludes u.pathname "/spreadsheets" = true →
      findCapture "/spreadsheets/d/" isDocIdChar u.pathname = some id →
      generateDocKeyBg u = "gsheet_" ++ id) ∧
    (∀ (u : URLParts) (a b : List Char),
      strIncludes u.hostname "docs.google.com" = false →
      (strIncludes u.hostname "office.com" || strIncludes u.hostname "office365.com") = true →
      scanOffice u.pathname.data = some (a, b) →
      generateDocKeyBg u = "office_" ++ String.mk a ++ "_" ++ String.mk b) ∧
    (∀ (u : URLParts) (id : String),
      strIncludes u.hostname "docs.google.com" = false →
      strIncludes u.hostname "office.com" = false →
      strIncludes u.hostname "office365.com" = false →
      strIncludes u.hostname "claude.ai" = true →
      findCapture "/chat/" isDocIdChar u.pathname = some id →
      generateDocKeyBg u = "claude_" ++ id) ∧
    (∀ (u : URLParts) (id : String),
      strIncludes u.hostname "docs.google.com" = false →
      strIncludes u.hostname "office.com" = false →
      strIncludes u.hostname "office365.com" = false →
      strIncludes u.hostname "claude.ai" = false →
      (strIncludes u.hostname "chat.openai.com" || strIncludes u.hostname "chatgpt.com") = true →
      findCapture "/c/" isDocIdChar u.pathname = some id →
      generateDocKeyBg u = "chatgpt_" ++ id) ∧
    (∀ u : URLParts,
      (strIncludes u.hostname "docs.google.com" = false ∨
        findCapture "/document/d/" isDocIdChar u.pathname = none) →
      ((strIncludes u.hostname "docs.google.com" && strIncludes u.pathname "/spreadsheets") = false ∨
        findCapture "/spreadsheets/d/" isDocIdChar u.pathname = none) →
      ((strIncludes u.hostname "office.com" || strIncludes u.hostname "office365.com") = false ∨
        scanOffice u.pathname.data = none) →
      (strIncludes u.hostname "claude.ai" = false ∨
        findCapture "/chat/" isDocIdChar u.pathname = none) →
      ((strIncludes u.hostname "chat.openai.com" || strIncludes u.hostname "chatgpt.com") = false ∨
        findCapture "/c/" isDocIdChar u.pathname = none) →
      generateDocKeyBg u = "domain_" ++ u.hostname) := by
  refine ⟨rfl, rfl, ?_, ?_, ?_, ?_, ?_, ?_, ?_, ?_⟩
  · intro pat id tail hpat hid hall ht
    show (scanCapture pat isDocIdChar (pat ++ (id ++ tail))).map String.mk
      = some (String.mk id)
    rw [scanCapture_at_start pat id tail isDocIdChar hpat hid hall ht]
    rfl
  · exact scanOffice_at_start
  · intro u id h1 h2
    simp [generateDocKeyBg, h1, h2]
  · intro u id h1 h2 h3 h4
    simp [generateDocKeyBg, h1, h2, h3, h4]
  · intro u a b h1 h2 h3
    simp [generateDocKeyBg, h1, h2, h3]
  · intro u id h1 h2 h3 h4 h5
    simp [generateDocKeyBg, h1, h2, h3, h4, h5]
  · intro u id h1 h2 h3 h4 h5 h6
    simp [generateDocKeyBg, h1, h2, h3, h4, h5, h6]
  · intro u h1 h2 h3 h4 h5
    have s1 : (if strIncludes u.hostname "docs.google.com" then
        findCapture "/document/d/" isDocIdChar u.pathname else none) = none := by
      rcases h1 with h | h <;> simp [h]
    have s2 : (if strIncludes u.hostname "docs.google.com" && strIncludes u.pathname "/spreadsheets" then
        findCapture "/spreadsheets/d/" isDocIdChar u.pathname else none) = none := by
      rcases h2 with h | h <;> simp [h]
    have s3 : (if strIncludes u.hostname "office.com" || strIncludes u.hostname "office365.com" then
        (scanOffice u.pathname.data).map (fun p => (String.mk p.1, String.mk p.2)) else none) = none := by
      rcases h3 with h | h <;> simp [h]
    have s4 : (if strIncludes u.hostname "claude.ai" then
        findCapture "/chat/" isDocIdChar u.pathname else none) = none := by
      rcases h4 with h | h <;> simp [h]
    have s5 : (if strIncludes u.hostname "chat.openai.com" || strIncludes u.hostname "chatgpt.com" then
        findCapture "/c/" isDocIdChar u.pathname else none) = none := by
      rcases h5 with h | h <;> simp [h]
    simp only [generateDocKeyBg, s1, s2, s3, s4, s5]

/-- Claim C10 witness: the provider branches and the fallback of
`c10_docKey_resolution` instantiated at concrete URLs of each kind,
including provider hostnames whose path has no valid id segment (which
fall back to the domain key). -/
theorem c10_docKey_resolution_witness :
    generateDocKeyBg { hostname := "docs.google.com", pathname := "/document/d/XYZ123/edit" }
      = "gdoc_XYZ123" ∧
    generateDocKeyBg { hostname := "docs.google.com", pathname := "/spreadsheets/d/SHEET9/edit" }
      = "gsheet_SHEET9" ∧
    generateDocKeyBg { hostname := "www.office.com", pathname := "/launch/word/abc123" }
      = "office_launch_word" ∧
    generateDocKeyBg { hostname := "claude.ai", pathname := "/chat/xyz-9" }
      = "claude_xyz-9" ∧
    generateDocKeyBg { hostname := "chatgpt.com", pathname := "/c/conv-1" }
      = "chatgpt_conv-1" ∧
    generateDocKeyBg { hostname := "claude.ai", pathname := "/settings" }
      = "domain_claude.ai" ∧
    generateDocKeyBg { hostname := "docs.google.com", pathname := "/" }
      = "domain_docs.google.com" := by
  obtain ⟨-, -, -, -, hgdoc, hgsheet, hoffice, hclaude, hchatgpt, hfall⟩ := c10_docKey_resolution
  refine ⟨?_, ?_, ?_, ?_, ?_, ?_, ?_⟩
  · exact hgdoc { hostname := "docs.google.com", pathname := "/document/d/XYZ123/edit" }
      "XYZ123" (by decide) (by decide)
  · exact hgsheet { hostname := "docs.google.com", pathname := "/spreadsheets/d/SHEET9/edit" }
      "SHEET9" (by decide) (by decide) (by decide) (by decide)
  · exact hoffice { hostname := "www.office.com", pathname := "/launch/word/abc123" }
      "launch".data "word".data (by decide) (by decide) (by decide)
  · exact hclaude { hostname := "claude.ai", pathname := "/chat/xyz-9" }
      "xyz-9" (by decide) (by decide) (by decide) (by decide) (by decide)
  · exact hchatgpt { hostname := "chatgpt.com", pathname := "/c/conv-1" }
      "conv-1" (by decide) (by decide) (by decide) (by decide) (by decide) (by decide)
  · exact hfall { hostname := "claude.ai", pathname := "/settings" }
      (by decide) (by decide) (by decide) (by decide) (by decide)
  · exact hfall { hostname := "docs.google.com", pathname := "/" }
      (by decide) (by decide) (by decide) (by decide) (by decide)

/-! ## Claim C3 -/

lemma lookupTab_onRemoved_self (s : PollerState) (tid : Nat) :
    lookupTab (onRemoved s tid) tid = none := by
  induction s with
  | nil => rfl
  | cons p rest ih =>
    by_cases hp : p.1 = tid
    · simp only [onRemoved, List.filter_cons] at ih ⊢
      simp [hp, ih]
    · have hb : (p.1 == tid) = false := by simp [hp]
      simp only [onRemoved, List.filter_cons, lookupTab] at ih ⊢
      simp only [hb, Bool.not_false, if_true, List.find?_cons, hb]
      exact ih

lemma lookupTab_onRemoved_other (s : PollerState) (tid other : Nat) (h : other ≠ tid) :
    lookupTab (onRemoved s tid) other = lookupTab s other := by
  induction s with
  | nil => rfl
  | cons p rest ih =>
    by_cases hp : p.1 = tid
    · have hb : (p.1 == tid) = true := by simp [hp]
      have hb2 : (p.1 == other) = false := by
        simp only [beq_eq_false_iff_ne, ne_eq, hp]
        exact fun he => h he.symm
      simp only [onRemoved, List.filter_cons, hb, Bool.not_true, if_false, lookupTab,
        List.find?_cons, hb2] at ih ⊢
      exact ih
    · have hb : (p.1 == tid) = false := by simp [hp]
      by_cases ho : p.1 = other
      · have hb2 : (p.1 == other) = true := by simp [ho]
        simp [onRemoved, List.filter_cons, hb, lookupTab, List.find?_cons, hb2]
      · have hb2 : (p.1 == other) = false := by simp [ho]
        simp only [onRemoved, List.filter_cons, hb, Bool.not_false, if_true, lookupTab,
          List.find?_cons, hb2] at ih ⊢
        exact ih

/-- Claim C3 counterexample: with tab 1 at 5 accumulated seconds and tab 2
at 7, the tab-removal event for tab 1 deletes only tab 1's accumulator;
tab 2's in-progress accumulation of 7 seconds survives, so a removal
event does not reset every tab's accumulator. -/
theorem c3_onRemoved_keeps_other_accumulators :
    onRemoved [(1, { seconds := 5, tab := { id := 1, title := "A", url := "https://a.example/" } }),
               (2, { seconds := 7, tab := { id := 2, title := "B", url := "https://b.example/" } })] 1
      = [(2, { seconds := 7, tab := { id := 2, title := "B", url := "https://b.example/" } })] ∧
    lookupTab (onRemoved
        [(1, { seconds := 5, tab := { id := 1, title := "A", url := "https://a.example/" } }),
         (2, { seconds := 7, tab := { id := 2, title := "B", url := "https://b.example/" } })] 1) 2
      = some { seconds := 7, tab := { id := 2, title := "B", url := "https://b.example/" } } := by
  exact ⟨rfl, rfl⟩

/-- Claim C3 as amended: the tab-activated listener resets every
accumulator to the empty state, but the tab-removed listener discards
only the removed tab's accumulator and leaves every other tab's
in-progress accumulation in place. -/
theorem c3_reset_events (s : PollerState) (tid other : Nat) (h : other ≠ tid) :
    onActivated s = [] ∧
    lookupTab (onRemoved s tid) tid = none ∧
    lookupTab (onRemoved s tid) other = lookupTab s other :=
  ⟨rfl, lookupTab_onRemoved_self s tid, lookupTab_onRemoved_other s tid other h⟩

/-- Claim C3 witness: `c3_reset_events` at a concrete state. -/
theorem c3_reset_events_witness :
    (2 : Nat) ≠ 1 ∧
    (onActivated [((3 : Nat), { seconds := 4, tab := { id := 3, title := "C", url := "https://c.example/" } })] = [] ∧
     lookupTab (onRemoved [((3 : Nat), { seconds := 4, tab := { id := 3, title := "C", url := "https://c.example/" } })] 1) 1 = none ∧
     lookupTab (onRemoved [((3 : Nat), { seconds := 4, tab := { id := 3, title := "C", url := "https://c.example/" } })] 1) 2
       = lookupTab [((3 : Nat), { seconds := 4, tab := { id := 3, title := "C", url := "https://c.example/" } })] 2) :=
  ⟨by decide,
   c3_reset_events [((3 : Nat), { seconds := 4, tab := { id := 3, title := "C", url := "https://c.example/" } })] 1 2 (by decide)⟩

/-! ## Claim C7 -/

lemma lookupTab_setTab_self (s : PollerState) (tid : Nat) (v : TabAcc) :
    lookupTab (setTab s tid v) tid = some v := by
  induction s with
  | nil => simp [setTab, lookupTab]
  | cons p rest ih =>
    by_cases hp : p.1 = tid
    · have hb : (p.1 == tid) = true := by simp [hp]
      simp [setTab, hb, lookupTab]
    · have hb : (p.1 == tid) = false := by simp [hp]
      simp only [setTab, hb, Bool.false_eq_true, if_false, lookupTab, List.find?_cons, hb] at ih ⊢
      exact ih

/-- Claim C7: on a tick where the active tab has a truthy id and title
and a trackable URL, the tab's accumulator rises by exactly one second;
no record call is issued while the new count is below the 10-second
threshold; and on every tick at or past the threshold (with a parseable
URL) a record call is issued whose `durationMs` is exactly 1000 — one
tick's worth, never the accumulated span. -/
theorem c7_tick_accumulates_and_records (s : PollerState) (tab : Tab) (today : String)
    (hid : tab.id ≠ 0) (htitle : tab.title ≠ "") (hurl : isTrackableUrl tab.url = true) :
    ((lookupTab (trackActiveTab s (some tab) today).1 tab.id).map TabAcc.seconds
        = some (((lookupTab s tab.id).map TabAcc.seconds).getD 0 + 1)) ∧
    (((lookupTab s tab.id).map TabAcc.seconds).getD 0 + 1 < 10 →
        (trackActiveTab s (some tab) today).2 = none) ∧
    (∀ dk : String, 10 ≤ ((lookupTab s tab.id).map TabAcc.seconds).getD 0 + 1 →
        generateDocKeyStr tab.url = Except.ok dk →
        (trackActiveTab s (some tab) today).2
          = some { docKey := dk, title := tab.title, date := today
                   durationMs := 1000, url := tab.url }) := by
  have hidb : (tab.id == 0) = false := by simp [hid]
  have htb : (tab.title == "") = false := by
    simp only [beq_eq_false_iff_ne, ne_eq]
    exact htitle
  have hcond : (tab.id == 0 || tab.title == "") = false := by simp [hidb, htb]
  have hnurl : (!(isTrackableUrl tab.url)) = false := by simp [hurl]
  refine ⟨?_, ?_, ?_⟩
  · simp only [trackActiveTab, hcond, Bool.false_eq_true, if_false, hnurl]
    by_cases h10 : 10 ≤ ((lookupTab s tab.id).map TabAcc.seconds).getD 0 + 1
    · simp only [h10, if_true]
      cases hg : generateDocKeyStr tab.url with
      | ok dk => simp [lookupTab_setTab_self]
      | error e => simp [lookupTab_setTab_self]
    · simp only [h10, if_false]
      simp [lookupTab_setTab_self]
  · intro hlt
    have h10 : ¬ 10 ≤ ((lookupTab s tab.id).map TabAcc.seconds).getD 0 + 1 := by omega
    simp only [trackActiveTab, hcond, Bool.false_eq_true, if_false, hnurl, h10, if_false]
  · intro dk h10 hg
    simp only [trackActiveTab, hcond, Bool.false_eq_true, if_false, hnurl, h10, if_true, hg]

/-- Claim C7 witness: `c7_tick_accumulates_and_records` on an empty
poller state with a trackable tab: the accumulator goes from 0 to 1 and,
being below the threshold, no record call is issued. -/
theorem c7_tick_witness :
    ({ id := 1, title := "Doc", url := "https://example.com/page" } : Tab).id ≠ 0 ∧
    ({ id := 1, title := "Doc", url := "https://example.com/page" } : Tab).title ≠ "" ∧
    isTrackableUrl "https://example.com/page" = true ∧
    (((lookupTab (trackActiveTab [] (some { id := 1, title := "Doc", url := "https://example.com/page" }) "2024-01-01").1 1).map TabAcc.seconds
        = some (((lookupTab [] 1).map TabAcc.seconds).getD 0 + 1)) ∧
     (((lookupTab ([] : PollerState) 1).map TabAcc.seconds).getD 0 + 1 < 10 →
        (trackActiveTab [] (some { id := 1, title := "Doc", url := "https://example.com/page" }) "2024-01-01").2 = none) ∧
     (∀ dk : String, 10 ≤ ((lookupTab ([] : PollerState) 1).map TabAcc.seconds).getD 0 + 1 →
        generateDocKeyStr "https://example.com/page" = Except.ok dk →
        (trackActiveTab [] (some { id := 1, title := "Doc", url := "https://example.com/page" }) "2024-01-01").2
          = some { docKey := dk, title := "Doc", date := "2024-01-01"
                   durationMs := 1000, url := "https://example.com/page" })) :=
  ⟨by decide, by decide, by decide,
   c7_tick_accumulates_and_records [] { id := 1, title := "Doc", url := "https://example.com/page" }
     "2024-01-01" (by decide) (by decide) (by decide)⟩

/-! ## Claim C2 -/

lemma recordSession_stats_self (db : DB) (inp : SessionInput) :
    ((db.recordSession inp).getDocumentStats inp.docKey).map DocumentRecord.totalTimeMs
      = some ((((db.getDocumentStats inp.docKey).map DocumentRecord.totalTimeMs).getD 0)
               + inp.durationMs) := by
  unfold DB.recordSession DB.getDocumentStats
  cases h : db.documents inp.docKey <;> simp [h]

lemma recordSession_sessions_count (db : DB) (inp : SessionInput) (k : String)
    (h : inp.docKey = k) :
    ((db.recordSession inp).getSessionsByDocKey k).length
      = (db.getSessionsByDocKey k).length + 1 := by
  unfold DB.recordSession DB.getSessionsByDocKey
  simp [List.filter_append, h]

lemma recordMany_total (k : String) (l : List SessionInput) :
    ∀ (db : DB) (t : Nat), (∀ inp ∈ l, inp.docKey = k) →
      (db.getDocumentStats k).map DocumentRecord.totalTimeMs = some t →
      ((db.recordMany l).getDocumentStats k).map DocumentRecord.totalTimeMs
        = some (t + (l.map SessionInput.durationMs).sum) := by
  induction l with
  | nil =>
    intro db t _ h
    simpa [DB.recordMany] using h
  | cons inp rest ih =>
    intro db t hk h
    have hkey : inp.docKey = k := hk inp (by simp)
    have step := recordSession_stats_self db inp
    rw [hkey] at step
    rw [h] at step
    have step2 : ((db.recordSession inp).getDocumentStats k).map DocumentRecord.totalTimeMs
        = some (t + inp.durationMs) := by simpa using step
    have htail := ih (db.recordSession inp) (t + inp.durationMs)
      (fun i hi => hk i (by simp [hi])) step2
    have : DB.recordMany db (inp :: rest) = DB.recordMany (db.recordSession inp) rest := rfl
    rw [this, htail]
    simp [add_assoc]

lemma recordMany_count (k : String) (l : List SessionInput) :
    ∀ db : DB, (∀ inp ∈ l, inp.docKey = k) →
      ((db.recordMany l).getSessionsByDocKey k).length
        = (db.getSessionsByDocKey k).length + l.length := by
  induction l with
  | nil => intro db _; rfl
  | cons inp rest ih =>
    intro db hk
    have hkey : inp.docKey = k := hk inp (by simp)
    have : DB.recordMany db (inp :: rest) = DB.recordMany (db.recordSession inp) rest := rfl
    rw [this, ih (db.recordSession inp) (fun i hi => hk i (by simp [hi])),
      recordSession_sessions_count db inp k hkey]
    simp
    omega

/-- Claim C2: starting from a store with no document record and no
session records for `k`, after recording the inputs `l` (all with docKey
`k`) the document's `totalTimeMs` is exactly the sum of the recorded
durations, and `getSessionsByDocKey k` returns exactly `l.length`
records. -/
theorem c2_recordSession_additive (db : DB) (k : String) (l : List SessionInput)
    (hk : ∀ inp ∈ l, inp.docKey = k)
    (hdoc : db.getDocumentStats k = none)
    (hsess : db.getSessionsByDocKey k = [])
    (hne : l ≠ []) :
    ((db.recordMany l).getDocumentStats k).map DocumentRecord.totalTimeMs
        = some ((l.map SessionInput.durationMs).sum) ∧
    ((db.recordMany l).getSessionsByDocKey k).length = l.length := by
  constructor
  · cases l with
    | nil => exact absurd rfl hne
    | cons inp rest =>
      have hkey : inp.docKey = k := hk inp (by simp)
      have step := recordSession_stats_self db inp
      rw [hkey, hdoc] at step
      have step2 : ((db.recordSession inp).getDocumentStats k).map DocumentRecord.totalTimeMs
          = some inp.durationMs := by simpa using step
      have htail := recordMany_total k rest (db.recordSession inp) inp.durationMs
        (fun i hi => hk i (by simp [hi])) step2
      have hfold : DB.recordMany db (inp :: rest) = DB.recordMany (db.recordSession inp) rest := rfl
      rw [hfold, htail]
      simp
  · have := recordMany_count k l db hk
    rw [hsess] at this
    simpa using this

/-- Claim C2 witness: the spec's own scenario — three sessions of 1000,
2000 and 3000 ms for `gdoc_abc` on an empty store yield
`totalTimeMs = 6000` and exactly 3 session records. -/
theorem c2_recordSession_additive_witness :
    (∀ inp ∈ [({ docKey := "gdoc_abc", title := "T", date := "2024-01-01", durationMs := 1000,
                 url := "u", now := "n1" } : SessionInput),
              { docKey := "gdoc_abc", title := "T", date := "2024-01-01", durationMs := 2000,
                 url := "u", now := "n2" },
              { docKey := "gdoc_abc", title := "T", date := "2024-01-01", durationMs := 3000,
                 url := "u", now := "n3" }], inp.docKey = "gdoc_abc") ∧
    (DB.getDocumentStats { documents := fun _ => none, sessions := [], nextId := 0 } "gdoc_abc"
        = none) ∧
    (DB.getSessionsByDocKey { documents := fun _ => none, sessions := [], nextId := 0 } "gdoc_abc"
        = []) ∧
    (((DB.recordMany { documents := fun _ => none, sessions := [], nextId := 0 }
        [{ docKey := "gdoc_abc", title := "T", date := "2024-01-01", durationMs := 1000,
           url := "u", now := "n1" },
         { docKey := "gdoc_abc", title := "T", date := "2024-01-01", durationMs := 2000,
           url := "u", now := "n2" },
         { docKey := "gdoc_abc", title := "T", date := "2024-01-01", durationMs := 3000,
           url := "u", now := "n3" }]).getDocumentStats "gdoc_abc").map DocumentRecord.totalTimeMs
        = some 6000) ∧
    ((DB.recordMany { documents := fun _ => none, sessions := [], nextId := 0 }
        [{ docKey := "gdoc_abc", title := "T", date := "2024-01-01", durationMs := 1000,
           url := "u", now := "n1" },
         { docKey := "gdoc_abc", title := "T", date := "2024-01-01", durationMs := 2000,
           url := "u", now := "n2" },
         { docKey := "gdoc_abc", title := "T", date := "2024-01-01", durationMs := 3000,
           url := "u", now := "n3" }]).getSessionsByDocKey "gdoc_abc").length = 3 := by
  refine ⟨by decide, rfl, rfl, ?_⟩
  have h := c2_recordSession_additive { documents := fun _ => none, sessions := [], nextId := 0 }
    "gdoc_abc"
    [{ docKey := "gdoc_abc", title := "T", date := "2024-01-01", durationMs := 1000,
       url := "u", now := "n1" },
     { docKey := "gdoc_abc", title := "T", date := "2024-01-01", durationMs := 2000,
       url := "u", now := "n2" },
     { docKey := "gdoc_abc", title := "T", date := "2024-01-01", durationMs := 3000,
       url := "u", now := "n3" }]
    (by decide) rfl rfl (by decide)
  exact h

/-! ## Claim C4 -/

lemma filter_idem {α : Type} (p : α → Bool) (l : List α) :
    (l.filter p).filter p = l.filter p := by
  induction l with
  | nil => rfl
  | cons a rest ih =>
    by_cases h : p a = true
    · simp [List.filter_cons, h, ih]
    · have hb : p a = false := by
        cases hpa : p a
        · rfl
        · exact absurd hpa h
      simp [List.filter_cons, hb, ih]

/-- Claim C4 counterexample: a second run with a LATER cutoff does make
additional deletions.  After deleting with cutoff 2024-01-01 one session
(dated 2024-01-02) remains; rerunning with the later cutoff 2024-01-03
deletes it too. -/
theorem c4_later_cutoff_deletes_more :
    (DB.deleteOldSessions
      { documents := fun _ => none,
        sessions := [{ id := 1, docKey := "d", date := "2023-12-30", durationMs := 1000,
                       timestamp := "t1" },
                     { id := 2, docKey := "d", date := "2024-01-02", durationMs := 1000,
                       timestamp := "t2" }],
        nextId := 3 } "2024-01-01").sessions
      = [{ id := 2, docKey := "d", date := "2024-01-02", durationMs := 1000,
           timestamp := "t2" }] ∧
    ((DB.deleteOldSessions
      { documents := fun _ => none,
        sessions := [{ id := 1, docKey := "d", date := "2023-12-30", durationMs := 1000,
                       timestamp := "t1" },
                     { id := 2, docKey := "d", date := "2024-01-02", durationMs := 1000,
                       timestamp := "t2" }],
        nextId := 3 } "2024-01-01").deleteOldSessions "2024-01-03").sessions = [] := by
  exact ⟨by decide, by decide⟩

/-- Claim C4 as amended: `deleteOldSessions cutoff` keeps exactly the
sessions whose date is above the cutoff (deleting exactly those with
`date ≤ cutoff` in the store's key order), and rerunning with the SAME
cutoff is a no-op; with a strictly later cutoff a second run may delete
the sessions whose dates lie between the two cutoffs. -/
theorem c4_deleteOldSessions_exact_idempotent (db : DB) (c : String) :
    (∀ s : SessionRecord,
      s ∈ (db.deleteOldSessions c).sessions ↔ (s ∈ db.sessions ∧ dateLe s.date c = false)) ∧
    (db.deleteOldSessions c).deleteOldSessions c = db.deleteOldSessions c := by
  constructor
  · intro s
    simp [DB.deleteOldSessions, List.mem_filter]
  · show ({ db with sessions := db.sessions.filter (fun s => !(dateLe s.date c)) } :
        DB).deleteOldSessions c = _
    unfold DB.deleteOldSessions
    have h := filter_idem (fun s : SessionRecord => !(dateLe s.date c)) db.sessions
    simp only []
    rw [h]

/-! ## Claim C6 -/

/-- Claim C6: `deleteOldSessions` touches only the sessions table; the
whole documents map, and so every DocumentRecord with all its fields
(`totalTimeMs`, `title`, `firstSeen`, `lastSeen`), is unchanged, even
when sessions contributing to a document's `totalTimeMs` are deleted. -/
theorem c6_deleteOldSessions_preserves_documents (db : DB) (c : String) :
    (db.deleteOldSessions c).documents = db.documents ∧
    (∀ k, (db.deleteOldSessions c).getDocumentStats k = db.getDocumentStats k) ∧
    (db.deleteOldSessions c).nextId = db.nextId :=
  ⟨rfl, fun _ => rfl, rfl⟩

/-! ## Claim C8 -/

lemma filter_ne_then_eq (l : List SessionRecord) (k : String) :
    ((l.filter fun s => !(s.docKey == k)).filter fun s => s.docKey == k) = [] := by
  induction l with
  | nil => rfl
  | cons s rest ih =>
    by_cases h : s.docKey = k
    · simp [List.filter_cons, h, ih]
    · have hb : (s.docKey == k) = false := by simp [h]
      simp [List.filter_cons, hb, ih]

lemma filter_ne_then_other (l : List SessionRecord) (k k2 : String) (h : k2 ≠ k) :
    ((l.filter fun s => !(s.docKey == k)).filter fun s => s.docKey == k2)
      = l.filter fun s => s.docKey == k2 := by
  induction l with
  | nil => rfl
  | cons s rest ih =>
    by_cases hk : s.docKey = k
    · have hb : (s.docKey == k) = true := by simp [hk]
      have hb2 : (s.docKey == k2) = false := by
        simp only [beq_eq_false_iff_ne, ne_eq, hk]
        exact fun he => h he.symm
      simp [List.filter_cons, hb, hb2, ih]
    · have hb : (s.docKey == k) = false := by simp [hk]
      simp [List.filter_cons, hb, ih]

/-- Claim C8: `deleteDocument k` removes the DocumentRecord for `k` and
leaves zero SessionRecords for `k`; every other document's record and
session list are untouched. -/
theorem c8_deleteDocument_removes_key_only (db : DB) (k : String) :
    (db.deleteDocument k).getDocumentStats k = none ∧
    (db.deleteDocument k).getSessionsByDocKey k = [] ∧
    (∀ k2, k2 ≠ k →
      (db.deleteDocument k).getDocumentStats k2 = db.getDocumentStats k2 ∧
      (db.deleteDocument k).getSessionsByDocKey k2 = db.getSessionsByDocKey k2) := by
  refine ⟨?_, ?_, ?_⟩
  · simp [DB.deleteDocument, DB.getDocumentStats]
  · simp [DB.deleteDocument, DB.getSessionsByDocKey, filter_ne_then_eq]
  · intro k2 hk2
    constructor
    · simp [DB.deleteDocument, DB.getDocumentStats, hk2]
    · simpa [DB.deleteDocument, DB.getSessionsByDocKey] using
        filter_ne_then_other db.sessions k k2 hk2

/-- Claim C8 witness: `c8_deleteDocument_removes_key_only` on a concrete
two-document store. -/
theorem c8_deleteDocument_witness :
    ((DB.deleteDocument
        { documents := fun s => if s = "a" then
            some { docKey := "a", title := "A", url := "ua", firstSeen := "f", lastSeen := "l",
                   totalTimeMs := 5 }
          else if s = "b" then
            some { docKey := "b", title := "B", url := "ub", firstSeen := "f", lastSeen := "l",
                   totalTimeMs := 9 }
          else none,
          sessions := [{ id := 1, docKey := "a", date := "2024-01-01", durationMs := 5,
                         timestamp := "t1" },
                       { id := 2, docKey := "b", date := "2024-01-02", durationMs := 9,
                         timestamp := "t2" }],
          nextId := 3 } "a").getDocumentStats "a" = none) ∧
    ((DB.deleteDocument
        { documents := fun s => if s = "a" then
            some { docKey := "a", title := "A", url := "ua", firstSeen := "f", lastSeen := "l",
                   totalTimeMs := 5 }
          else if s = "b" then
            some { docKey := "b", title := "B", url := "ub", firstSeen := "f", lastSeen := "l",
                   totalTimeMs := 9 }
          else none,
          sessions := [{ id := 1, docKey := "a", date := "2024-01-01", durationMs := 5,
                         timestamp := "t1" },
                       { id := 2, docKey := "b", date := "2024-01-02", durationMs := 9,
                         timestamp := "t2" }],
          nextId := 3 } "a").getSessionsByDocKey "a" = []) ∧
    ("b" : String) ≠ "a" := by
  have h := c8_deleteDocument_removes_key_only
    { documents := fun s => if s = "a" then
        some { docKey := "a", title := "A", url := "ua", firstSeen := "f", lastSeen := "l",
               totalTimeMs := 5 }
      else if s = "b" then
        some { docKey := "b", title := "B", url := "ub", firstSeen := "f", lastSeen := "l",
               totalTimeMs := 9 }
      else none,
      sessions := [{ id := 1, docKey := "a", date := "2024-01-01", durationMs := 5,
                     timestamp := "t1" },
                   { id := 2, docKey := "b", date := "2024-01-02", durationMs := 9,
                     timestamp := "t2" }],
      nextId := 3 } "a"
  exact ⟨h.1, h.2.1, by decide⟩

/-! ## Claim C9 -/

lemma fdiv_day_of_small_offset (n r : Int) (h0 : 0 ≤ r) (h1 : r < 86400000) :
    Int.fdiv (n * 86400000 + r) 86400000 = n := by
  rw [Int.fdiv_eq_ediv _ (by norm_num : (0:Int) ≤ 86400000)]
  rw [add_comm, mul_comm]
  rw [Int.add_mul_ediv_left r n (by norm_num : (86400000:Int) ≠ 0)]
  rw [Int.ediv_eq_zero_of_lt h0 h1]
  simp

/-- Claim C9 counterexample: `getWeekKey` is timezone-dependent, and in a
timezone behind UTC it does not bucket by the week's Sunday.  2024-01-07
is a Sunday (epoch day 19729, weekday 0) and 2024-01-08 the following
Monday of the same calendar week; at UTC the key is the Sunday
2024-01-07, but at UTC-5 (offset -300 minutes) the Sunday is keyed
2024-01-01 while the Monday is keyed 2024-01-08 — a different bucket,
and one that is not the week's Sunday. -/
theorem c9_weekKey_timezone_counterexample :
    getWeekKey 0 "2024-01-07" = some "2024-01-07" ∧
    getWeekKey 0 "2024-01-08" = some "2024-01-07" ∧
    getWeekKey (-300) "2024-01-07" = some "2024-01-01" ∧
    getWeekKey (-300) "2024-01-08" = some "2024-01-08" ∧
    epochDayOfDateString "2024-01-07" = some 19729 ∧
    (19729 + 4) % (7:Int) = 0 ∧
    epochDayOfDateString "2024-01-08" = some 19730 := by
  exact ⟨by decide, by decide, by decide, by decide, by decide, by decide, by decide⟩

/-- Claim C9 as amended: in every timezone at or ahead of UTC (offset
`0 ≤ tz < 1440` minutes), `getWeekKey` buckets a date with epoch day `n`
under epoch day `n - (n + 4) % 7`, which is the Sunday of that date's
calendar week (its weekday index is 0) and is independent of `tz`; and
two consecutive dates in the same Sunday-started calendar week get the
same bucket key.  In timezones behind UTC the key shifts (see the
counterexample), so the computation is not locale-independent in
general. -/
theorem c9_weekKey_sunday_nonneg_offset (tz : Int) (ds1 ds2 : String) (n : Int)
    (htz0 : 0 ≤ tz) (htz1 : tz < 1440)
    (h1 : epochDayOfDateString ds1 = some n) :
    getWeekKey tz ds1 = some (formatEpochDay (n - (n + 4) % 7)) ∧
    ((n - (n + 4) % 7) + 4) % 7 = 0 ∧
    (epochDayOfDateString ds2 = some (n + 1) → (n + 4) % 7 < 6 →
      getWeekKey tz ds2 = getWeekKey tz ds1) := by
  have hr0 : 0 ≤ tz * 60000 := mul_nonneg htz0 (by norm_num)
  have hr1 : tz * 60000 < 86400000 := by
    have h : tz * 60000 < 1440 * 60000 :=
      mul_lt_mul_of_pos_right htz1 (by norm_num)
    linarith
  have hd1 : getWeekKey tz ds1 = some (formatEpochDay (n - (n + 4) % 7)) := by
    simp only [getWeekKey, h1]
    rw [fdiv_day_of_small_offset n (tz * 60000) hr0 hr1]
  refine ⟨hd1, by omega, ?_⟩
  intro h2 hw
  have hd2 : getWeekKey tz ds2 = some (formatEpochDay ((n + 1) - (n + 1 + 4) % 7)) := by
    simp only [getWeekKey, h2]
    rw [fdiv_day_of_small_offset (n + 1) (tz * 60000) hr0 hr1]
  rw [hd1, hd2]
  have harith : (n + 1) - (n + 1 + 4) % 7 = n - (n + 4) % 7 := by omega
  rw [harith]

/-- Claim C9 witness: `c9_weekKey_sunday_nonneg_offset` at UTC for the
Monday 2024-01-08 (epoch day 19730) and the following Tuesday: both
bucket under the Sunday 2024-01-07. -/
theorem c9_weekKey_witness :
    (0 : Int) ≤ 0 ∧ (0 : Int) < 1440 ∧
    epochDayOfDateString "2024-01-08" = some 19730 ∧
    (getWeekKey 0 "2024-01-08" = some (formatEpochDay (19730 - (19730 + 4) % 7)) ∧
     (((19730 : Int) - (19730 + 4) % 7) + 4) % 7 = 0 ∧
     (epochDayOfDateString "2024-01-09" = some (19730 + 1) → ((19730 : Int) + 4) % 7 < 6 →
       getWeekKey 0 "2024-01-09" = getWeekKey 0 "2024-01-08")) :=
  ⟨by decide, by decide, by decide,
   c9_weekKey_sunday_nonneg_offset 0 "2024-01-08" "2024-01-09" 19730
     (by decide) (by decide) (by decide)⟩
